import Mathlib

/-!
Shallow embedding of `main.go` from gurleensethi/go-cli-flag.

The program is a CLI that performs one GitHub search (repositories or
users), decodes the JSON response envelope `{"items": [...]}` and extracts
one string field per item (`full_Name` tag for repos, `login` for users).
We model the JSON values, Go's `encoding/json` decoding of the two result
struct shapes (case-insensitive key matching, zero values for absent
fields), the HTTP outcome classification of `findRepos`/`findUsers`, the
argument check of `executeSearchRepos`/`executeSearchUsers`, and the query
string built by `url.Values.Encode` together with its decoding.
-/

namespace GoCliFlag

/-- A JSON value, as produced by parsing a response body. -/
inductive Json where
  | null
  | bool (b : Bool)
  | num (n : Int)
  | str (s : String)
  | arr (elems : List Json)
  | obj (members : List (String × Json))

/-- Folding of one rune (code point) as `encoding/json`'s `foldName` does:
ASCII lower-case letters are upper-cased, and a non-ASCII rune is replaced
by the smallest rune of its Unicode simple-fold cycle.  The only non-ASCII
runes whose fold cycle reaches ASCII are U+017F (long s, cycle minimum
`S`) and U+212A (Kelvin sign, cycle minimum `K`); every other non-ASCII
rune stays non-ASCII under folding, so for matching against the program's
ASCII field tags (`items`, `full_Name`, `login`) leaving it unchanged is
exact. -/
def foldRune (n : Nat) : Nat :=
  if 97 ≤ n ∧ n ≤ 122 then n - 32
  else if n = 383 then 83
  else if n = 8490 then 75
  else n

/-- The case-folded rune sequence of a key, as `foldName` produces it. -/
def foldKey (s : String) : List Nat := s.data.map (fun c => foldRune c.toNat)

/-- Case-insensitive key matching used by `encoding/json` when it matches a
JSON object key against a struct field tag: the folded keys coincide. -/
def eqFold (a b : String) : Bool := foldKey a == foldKey b

/-- Decoding of the single string field of a result-item struct from the
members of a JSON object, processed in order.  `cur` is the current field
value (Go zero value `""` initially).  A matching key with a string value
overwrites the field, a matching `null` leaves it unchanged, a matching
value of any other shape is a type error; non-matching keys are ignored. -/
def decodeStringFieldFrom (tag : String) (cur : String) :
    List (String × Json) → Except Unit String
  | [] => .ok cur
  | (k, v) :: rest =>
    if eqFold k tag then
      match v with
      | .str s => decodeStringFieldFrom tag s rest
      | .null => decodeStringFieldFrom tag cur rest
      | _ => .error ()
    else decodeStringFieldFrom tag cur rest

/-- Decoding one item of the `items` array into the extracted string:
an object is decoded field-wise, `null` leaves the struct at its zero
value, anything else is a type error. -/
def decodeItem (tag : String) : Json → Except Unit String
  | .obj members => decodeStringFieldFrom tag "" members
  | .null => .ok ""
  | _ => .error ()

/-- Decoding the `items` array elementwise, in order.  This combines the
struct decoding of each item with the extraction loop of
`findRepos`/`findUsers` (which reads the one decoded field of each item). -/
def decodeItems (tag : String) : List Json → Except Unit (List String)
  | [] => .ok []
  | j :: rest =>
    match decodeItem tag j with
    | .error e => .error e
    | .ok s =>
      match decodeItems tag rest with
      | .error e => .error e
      | .ok ss => .ok (s :: ss)

/-- Decoding the `Items []T \`json:"items"\`` field of the envelope struct
from the members of the top-level JSON object, processed in order.  A
matching array value decodes elementwise, a matching `null` resets the
slice to nil (extracted as `[]`), a matching value of any other shape is a
type error; non-matching keys are ignored. -/
def decodeItemsFieldFrom (tag : String) (cur : List String) :
    List (String × Json) → Except Unit (List String)
  | [] => .ok cur
  | (k, v) :: rest =>
    if eqFold k "items" then
      match v with
      | .arr xs =>
        match decodeItems tag xs with
        | .error e => .error e
        | .ok ss => decodeItemsFieldFrom tag ss rest
      | .null => decodeItemsFieldFrom tag [] rest
      | _ => .error ()
    else decodeItemsFieldFrom tag cur rest

/-- Decoding the whole `searchResult` envelope from the parsed body and
extracting the field of each item: a JSON object is decoded field-wise
(an absent `items` key leaves the nil slice, extracted as `[]`), a
top-level `null` is a no-op, and any other top-level shape is a type
error. -/
def decodeSearchResult (tag : String) : Json → Except Unit (List String)
  | .obj members => decodeItemsFieldFrom tag [] members
  | .null => .ok []
  | _ => .error ()

/-- A response body: either not valid JSON, or a parsed JSON value. -/
inductive Body where
  | invalid
  | json (j : Json)

/-- The part of an HTTP response that `findRepos`/`findUsers` consume. -/
structure HttpResponse where
  statusCode : Int
  body : Body

/-- The outcome of `http.DefaultClient.Do`: a transport error or a
response. -/
inductive FetchOutcome where
  | transportError
  | response (res : HttpResponse)

/-- The single error message used on every failure path of
`findRepos` and `findUsers`. -/
def connectionErrorMsg : String := "failed to connect to github"

/-- The request/decode/extract pipeline shared verbatim by `findRepos`
(tag `full_Name`) and `findUsers` (tag `login`).  The returned pair models
Go's `([]string, error)`: the first component is `none` for a nil slice
and the second is `none` for a nil error. -/
def searchPipeline (tag : String) :
    FetchOutcome → Option (List String) × Option String
  | .transportError => (none, some connectionErrorMsg)
  | .response res =>
    if res.statusCode < 200 ∨ 300 ≤ res.statusCode then
      (none, some connectionErrorMsg)
    else
      match res.body with
      | .invalid => (none, some connectionErrorMsg)
      | .json j =>
        match decodeSearchResult tag j with
        | .error _ => (none, some connectionErrorMsg)
        | .ok items => (some items, none)

/-- `findRepos`: repositories search, extracting the struct field with
JSON tag `full_Name`. -/
def findRepos (fetch : FetchOutcome) : Option (List String) × Option String :=
  searchPipeline "full_Name" fetch

/-- `findUsers`: users search, extracting the struct field with JSON tag
`login`. -/
def findUsers (fetch : FetchOutcome) : Option (List String) × Option String :=
  searchPipeline "login" fetch

/-- The missing-search-term error message, byte-identical in
`executeSearchRepos` and `executeSearchUsers`. -/
def missingTermErrorMsg : String :=
  "provide a search term for searching repos: search-repos <search_term>"

/-- The error returned by `executeSearchRepos`: the missing-term error on
an empty positional-argument list, otherwise the error of `findRepos`. -/
def executeSearchRepos (args : List String) (fetch : FetchOutcome) :
    Option String :=
  match args with
  | [] => some missingTermErrorMsg
  | _ :: _ => (findRepos fetch).2

/-- The error returned by `executeSearchUsers`: the missing-term error on
an empty positional-argument list, otherwise the error of `findUsers`. -/
def executeSearchUsers (args : List String) (fetch : FetchOutcome) :
    Option String :=
  match args with
  | [] => some missingTermErrorMsg
  | _ :: _ => (findUsers fetch).2

/-- The upper-case hexadecimal digit of a nibble, as a byte. -/
def upperHexDigit (n : Nat) : Nat := if n < 10 then 48 + n else 55 + n

/-- The bytes `url.QueryEscape` leaves unescaped: ASCII alphanumerics and
`-`, `_`, `.`, `~`. -/
def isUnreservedByte (c : Nat) : Bool :=
  (65 ≤ c && c ≤ 90) || (97 ≤ c && c ≤ 122) || (48 ≤ c && c ≤ 57) ||
    c == 45 || c == 95 || c == 46 || c == 126

/-- Escaping of one byte by `url.QueryEscape`: unreserved bytes pass
through, a space becomes `+`, anything else becomes `%XX`. -/
def escapeByte (c : Nat) : List Nat :=
  if isUnreservedByte c then [c]
  else if c = 32 then [43]
  else [37, upperHexDigit (c / 16), upperHexDigit (c % 16)]

/-- `url.QueryEscape` over a byte string. -/
def queryEscape (s : List Nat) : List Nat := (s.map escapeByte).flatten

/-- The value of a hexadecimal digit byte, if it is one. -/
def hexDigitValue (c : Nat) : Option Nat :=
  if 48 ≤ c ∧ c ≤ 57 then some (c - 48)
  else if 65 ≤ c ∧ c ≤ 70 then some (c - 55)
  else if 97 ≤ c ∧ c ≤ 102 then some (c - 87)
  else none

/-- `url.QueryUnescape` over a byte string: `%XX` decodes to a byte (and
is malformed without two hex digits), `+` decodes to a space, every other
byte passes through. -/
def queryUnescape : List Nat → Option (List Nat)
  | [] => some []
  | c :: rest =>
    if c = 37 then
      match rest with
      | h :: l :: rest2 =>
        match hexDigitValue h, hexDigitValue l with
        | some a, some b => (queryUnescape rest2).map (fun t => (16 * a + b) :: t)
        | _, _ => none
      | _ => none
    else
      (queryUnescape rest).map (fun t => (if c = 43 then 32 else c) :: t)

/-- The raw query produced by `query.Set("q", term); query.Encode()`:
the byte string `q=` followed by the escaped term (113 is `q`, 61 is
`=`). -/
def encodedQuery (term : List Nat) : List Nat := 113 :: 61 :: queryEscape term

/-- Splitting a byte string on a separator byte (as `url.ParseQuery`
splits the raw query on `&`). -/
def splitOnByte (sep : Nat) : List Nat → List (List Nat)
  | [] => [[]]
  | c :: rest =>
    if c = sep then [] :: splitOnByte sep rest
    else
      match splitOnByte sep rest with
      | [] => [[c]]
      | h :: t => (c :: h) :: t

/-- Cutting a byte string at the first occurrence of a separator byte (as
`strings.Cut` at `=`); without a separator the value part is empty. -/
def cutByte (sep : Nat) : List Nat → List Nat × List Nat
  | [] => ([], [])
  | c :: rest =>
    if c = sep then ([], rest)
    else
      let p := cutByte sep rest
      (c :: p.1, p.2)

/-- Decoding one `key=value` component of a query string. -/
def parsePair (kv : List Nat) : Option (List Nat × List Nat) :=
  match queryUnescape (cutByte 61 kv).1, queryUnescape (cutByte 61 kv).2 with
  | some k, some v => some (k, v)
  | _, _ => none

/-- Decoding a list of query components, skipping empty ones. -/
def parsePairs : List (List Nat) → Option (List (List Nat × List Nat))
  | [] => some []
  | kv :: rest =>
    if kv = ([] : List Nat) then parsePairs rest
    else
      match parsePair kv, parsePairs rest with
      | some p, some ps => some (p :: ps)
      | _, _ => none

/-- Decoding a raw query string back into its key/value pairs, as
`url.ParseQuery` does. -/
def parseQuery (s : List Nat) : Option (List (List Nat × List Nat)) :=
  parsePairs (splitOnByte 38 s)

/-! ## Helper lemmas -/

lemma decodeStringFieldFrom_of_no_match (tag : String) :
    ∀ (members : List (String × Json)),
      (∀ kv ∈ members, eqFold kv.1 tag = false) →
      ∀ cur, decodeStringFieldFrom tag cur members = .ok cur := by
  intro members
  induction members with
  | nil => intro _ cur; rfl
  | cons kv rest ih =>
    intro hno cur
    obtain ⟨k, v⟩ := kv
    have hk : eqFold k tag = false := hno (k, v) (List.mem_cons_self _ _)
    simp only [decodeStringFieldFrom, hk, Bool.false_eq_true, if_false]
    exact ih (fun p hp => hno p (List.mem_cons_of_mem _ hp)) cur

lemma decodeItemsFieldFrom_of_no_match (tag : String) :
    ∀ (members : List (String × Json)),
      (∀ kv ∈ members, eqFold kv.1 "items" = false) →
      ∀ cur, decodeItemsFieldFrom tag cur members = .ok cur := by
  intro members
  induction members with
  | nil => intro _ cur; rfl
  | cons kv rest ih =>
    intro hno cur
    obtain ⟨k, v⟩ := kv
    have hk : eqFold k "items" = false := hno (k, v) (List.mem_cons_self _ _)
    simp only [decodeItemsFieldFrom, hk, Bool.false_eq_true, if_false]
    exact ih (fun p hp => hno p (List.mem_cons_of_mem _ hp)) cur

lemma searchPipeline_ok (tag : String) (st : Int) (j : Json) (out : List String)
    (h1 : 200 ≤ st) (h2 : st < 300) (hd : decodeSearchResult tag j = .ok out) :
    searchPipeline tag (.response ⟨st, .json j⟩) = (some out, none) := by
  simp only [searchPipeline]
  split
  · exfalso; omega
  · simp [hd]

lemma searchPipeline_shape (tag : String) (f : FetchOutcome) :
    searchPipeline tag f = (none, some connectionErrorMsg) ∨
      ∃ out, searchPipeline tag f = (some out, none) := by
  cases f with
  | transportError => exact Or.inl rfl
  | response res =>
    obtain ⟨st, b⟩ := res
    cases b with
    | invalid =>
      simp only [searchPipeline]
      split
      · exact Or.inl rfl
      · exact Or.inl rfl
    | json j =>
      cases hd : decodeSearchResult tag j with
      | error e =>
        simp only [searchPipeline]
        split
        · exact Or.inl rfl
        · left
          simp [hd]
      | ok out =>
        simp only [searchPipeline]
        split
        · exact Or.inl rfl
        · right
          exact ⟨out, by simp [hd]⟩

lemma decodeItems_ok_spec (tag : String) :
    ∀ (xs : List Json) (out : List String), decodeItems tag xs = .ok out →
      out.length = xs.length ∧
        ∀ i (hx : i < xs.length) (ho : i < out.length),
          decodeItem tag (xs.get ⟨i, hx⟩) = .ok (out.get ⟨i, ho⟩) := by
  intro xs
  induction xs with
  | nil =>
    intro out h
    simp only [decodeItems] at h
    cases h
    exact ⟨rfl, fun i hx _ => absurd hx (Nat.not_lt_zero i)⟩
  | cons j rest ih =>
    intro out h
    simp only [decodeItems] at h
    cases h1 : decodeItem tag j with
    | error e => rw [h1] at h; cases h
    | ok s =>
      rw [h1] at h
      cases h2 : decodeItems tag rest with
      | error e => rw [h2] at h; cases h
      | ok ss =>
        rw [h2] at h
        cases h
        obtain ⟨hl, hp⟩ := ih ss h2
        refine ⟨by simp [hl], ?_⟩
        intro i hx ho
        cases i with
        | zero => exact h1
        | succ n => exact hp n (by simpa using hx) (by simpa using ho)

lemma decodeSearchResult_items (tag : String) (xs : List Json) :
    decodeSearchResult tag (.obj [("items", .arr xs)]) = decodeItems tag xs := by
  have he : eqFold "items" "items" = true := by decide
  cases hd : decodeItems tag xs with
  | error e => simp [decodeSearchResult, decodeItemsFieldFrom, he, hd]
  | ok ss => simp [decodeSearchResult, decodeItemsFieldFrom, he, hd]

lemma searchPipeline_json_ok_inv (tag : String) (st : Int) (j : Json)
    (out : List String)
    (h : searchPipeline tag (.response ⟨st, .json j⟩) = (some out, none)) :
    decodeSearchResult tag j = .ok out := by
  cases hd : decodeSearchResult tag j with
  | error e =>
    simp only [searchPipeline] at h
    split at h
    · cases h
    · simp [hd] at h
  | ok ss =>
    simp only [searchPipeline] at h
    split at h
    · cases h
    · simp [hd] at h
      rw [h]

lemma unreserved_facts (c : Nat) (h : isUnreservedByte c = true) :
    c ≠ 32 ∧ c ≠ 37 ∧ c ≠ 38 ∧ c ≠ 43 ∧ c ≠ 61 := by
  simp only [isUnreservedByte, Bool.or_eq_true, Bool.and_eq_true,
    decide_eq_true_eq, beq_iff_eq] at h
  omega

lemma upperHexDigit_value (n : Nat) (h : n < 16) :
    hexDigitValue (upperHexDigit n) = some n := by
  interval_cases n <;> decide

lemma upperHexDigit_ne (n : Nat) (h : n < 16) :
    upperHexDigit n ≠ 38 ∧ upperHexDigit n ≠ 61 := by
  unfold upperHexDigit
  constructor <;> (split <;> omega)

lemma mem_escapeByte_ne (c b : Nat) (hc : c < 256) (hb : b ∈ escapeByte c) :
    b ≠ 38 ∧ b ≠ 61 := by
  unfold escapeByte at hb
  by_cases h : isUnreservedByte c = true
  · rw [if_pos h] at hb
    simp only [List.mem_singleton] at hb
    subst hb
    have hf := unreserved_facts _ h
    exact ⟨hf.2.2.1, hf.2.2.2.2⟩
  · rw [if_neg h] at hb
    by_cases h2 : c = 32
    · rw [if_pos h2] at hb
      simp only [List.mem_singleton] at hb
      omega
    · rw [if_neg h2] at hb
      have e1 := upperHexDigit_ne (c / 16) (by omega)
      have e2 := upperHexDigit_ne (c % 16) (by omega)
      simp only [List.mem_cons, List.not_mem_nil, or_false] at hb
      rcases hb with rfl | rfl | rfl
      · omega
      · exact e1
      · exact e2

lemma queryEscape_cons (c : Nat) (s : List Nat) :
    queryEscape (c :: s) = escapeByte c ++ queryEscape s := by
  simp [queryEscape]

lemma amp_not_mem_queryEscape (s : List Nat) (h : ∀ b ∈ s, b < 256) :
    (38 : Nat) ∉ queryEscape s := by
  intro hmem
  unfold queryEscape at hmem
  rw [List.mem_flatten] at hmem
  obtain ⟨l, hl, hbl⟩ := hmem
  rw [List.mem_map] at hl
  obtain ⟨c, hc, rfl⟩ := hl
  exact (mem_escapeByte_ne c 38 (h c hc) hbl).1 rfl

lemma queryUnescape_cons_ne (c : Nat) (h37 : c ≠ 37) (t : List Nat) :
    queryUnescape (c :: t) =
      (queryUnescape t).map (fun u => (if c = 43 then 32 else c) :: u) := by
  cases t with
  | nil => simp [queryUnescape, h37]
  | cons x t2 =>
    cases t2 with
    | nil => simp [queryUnescape, h37]
    | cons y t3 => simp [queryUnescape, h37]

lemma queryUnescape_percent (d1 d2 : Nat) (t : List Nat) :
    queryUnescape (37 :: d1 :: d2 :: t) =
      match hexDigitValue d1, hexDigitValue d2 with
      | some a, some b => (queryUnescape t).map (fun u => (16 * a + b) :: u)
      | _, _ => none := by
  simp [queryUnescape]

lemma queryUnescape_escapeByte_append (c : Nat) (hc : c < 256) (t : List Nat) :
    queryUnescape (escapeByte c ++ t) =
      (queryUnescape t).map (fun u => c :: u) := by
  unfold escapeByte
  by_cases h : isUnreservedByte c = true
  · rw [if_pos h]
    have hf := unreserved_facts c h
    rw [List.singleton_append, queryUnescape_cons_ne c hf.2.1]
    have hfun : (fun u : List Nat => (if c = 43 then 32 else c) :: u) =
        fun u => c :: u := by
      funext u
      rw [if_neg hf.2.2.2.1]
    rw [hfun]
  · rw [if_neg h]
    by_cases h2 : c = 32
    · rw [if_pos h2]
      subst h2
      rw [List.singleton_append, queryUnescape_cons_ne 43 (by omega)]
      simp
    · rw [if_neg h2]
      simp only [List.cons_append, List.nil_append]
      rw [queryUnescape_percent,
        upperHexDigit_value (c / 16) (by omega : c / 16 < 16),
        upperHexDigit_value (c % 16) (by omega : c % 16 < 16)]
      simp [Nat.div_add_mod]

lemma queryUnescape_queryEscape (s : List Nat) (h : ∀ b ∈ s, b < 256) :
    queryUnescape (queryEscape s) = some s := by
  induction s with
  | nil => rfl
  | cons c rest ih =>
    rw [queryEscape_cons]
    rw [queryUnescape_escapeByte_append c (h c (List.mem_cons_self _ _))]
    rw [ih (fun b hb => h b (List.mem_cons_of_mem _ hb))]
    rfl

lemma splitOnByte_of_not_mem (sep : Nat) (l : List Nat) (h : sep ∉ l) :
    splitOnByte sep l = [l] := by
  induction l with
  | nil => rfl
  | cons c rest ih =>
    have hc : ¬c = sep := fun e => h (e ▸ List.mem_cons_self c rest)
    simp only [splitOnByte]
    rw [if_neg hc, ih (fun hm => h (List.mem_cons_of_mem _ hm))]

/-! ## Claim theorems -/

/-- Claim C1, counterexample: on a 2xx response whose body is the valid
JSON object `{}` (which lacks an `items` field), both `findRepos` and
`findUsers` succeed with an empty result instead of failing with a
`SearchError`. -/
theorem missing_items_field_cex :
    findRepos (.response ⟨200, .json (.obj [])⟩) = (some [], none) ∧
    findUsers (.response ⟨200, .json (.obj [])⟩) = (some [], none) :=
  ⟨rfl, rfl⟩

/-- Claim C1, amended: on a 2xx response whose body is a valid JSON object
with no member whose key matches `items`, both searches succeed with an
empty result sequence and no error. -/
theorem missing_items_field_yields_empty_success (st : Int)
    (members : List (String × Json)) (h1 : 200 ≤ st) (h2 : st < 300)
    (hno : ∀ kv ∈ members, eqFold kv.1 "items" = false) :
    findRepos (.response ⟨st, .json (.obj members)⟩) = (some [], none) ∧
    findUsers (.response ⟨st, .json (.obj members)⟩) = (some [], none) := by
  have hr : decodeSearchResult "full_Name" (.obj members) = .ok [] := by
    simp only [decodeSearchResult]
    exact decodeItemsFieldFrom_of_no_match "full_Name" members hno []
  have hu : decodeSearchResult "login" (.obj members) = .ok [] := by
    simp only [decodeSearchResult]
    exact decodeItemsFieldFrom_of_no_match "login" members hno []
  exact ⟨searchPipeline_ok _ st _ [] h1 h2 hr,
    searchPipeline_ok _ st _ [] h1 h2 hu⟩

/-- Witness for the amended C1 at status 200 and body
`{"total_count": 0}`. -/
theorem missing_items_field_yields_empty_success_witness :
    ((200 : Int) ≤ 200 ∧ (200 : Int) < 300 ∧
      (∀ kv ∈ [("total_count", Json.num 0)], eqFold kv.1 "items" = false)) ∧
    findRepos (.response ⟨200, .json (.obj [("total_count", .num 0)])⟩) =
      (some [], none) :=
  ⟨⟨by decide, by decide, by decide⟩,
    (missing_items_field_yields_empty_success 200 [("total_count", .num 0)]
      (by decide) (by decide) (by decide)).1⟩

/-- Claim C2: on a 2xx response with envelope
`{"items":[{"full_name":"golang/go"},{"full_name":"golang/tools"}]}`,
`findRepos` returns exactly `["golang/go", "golang/tools"]` in that order
(the JSON key `full_name` is matched, case-insensitively, against the
struct tag). -/
theorem findRepos_extracts_full_name :
    findRepos (.response ⟨200, .json (.obj [("items", .arr
        [.obj [("full_name", .str "golang/go")],
         .obj [("full_name", .str "golang/tools")]])])⟩) =
      (some ["golang/go", "golang/tools"], none) := by
  decide

/-- Claim C3, counterexample: the uniform failure message of both searches
is `failed to connect to github`, not `could not complete search`. -/
theorem search_error_message_cex :
    (findRepos FetchOutcome.transportError).2 =
      some "failed to connect to github" ∧
    (findUsers FetchOutcome.transportError).2 =
      some "failed to connect to github" ∧
    "failed to connect to github" ≠ "could not complete search" :=
  ⟨rfl, rfl, by decide⟩

/-- Claim C3, amended: every failure of either search carries the single
error message `failed to connect to github`; the cause is never
distinguishable in the returned error value. -/
theorem search_error_message_uniform (fetch : FetchOutcome) (msg : String) :
    ((findRepos fetch).2 = some msg → msg = connectionErrorMsg) ∧
    ((findUsers fetch).2 = some msg → msg = connectionErrorMsg) := by
  constructor
  · intro hmsg
    rcases searchPipeline_shape "full_Name" fetch with hs | ⟨out, hs⟩
    · simp only [findRepos] at hmsg
      rw [hs] at hmsg
      simp at hmsg
      exact hmsg.symm
    · simp only [findRepos] at hmsg
      rw [hs] at hmsg
      simp at hmsg
  · intro hmsg
    rcases searchPipeline_shape "login" fetch with hs | ⟨out, hs⟩
    · simp only [findUsers] at hmsg
      rw [hs] at hmsg
      simp at hmsg
      exact hmsg.symm
    · simp only [findUsers] at hmsg
      rw [hs] at hmsg
      simp at hmsg

/-- Witness for the amended C3 at a transport error. -/
theorem search_error_message_uniform_witness :
    (findRepos FetchOutcome.transportError).2 =
      some "failed to connect to github" ∧
    "failed to connect to github" = connectionErrorMsg :=
  ⟨rfl, (search_error_message_uniform FetchOutcome.transportError
    "failed to connect to github").1 rfl⟩

/-- Claim C4: whenever the pipeline succeeds on an envelope whose `items`
member is the array `xs`, the output has the same length as `xs` and its
`i`-th entry is the extracted field of the `i`-th item — order preserved,
nothing dropped, re-sorted or duplicated. -/
theorem output_matches_items_pointwise (tag : String) (st : Int)
    (xs : List Json) (out : List String)
    (h : searchPipeline tag (.response ⟨st, .json (.obj [("items", .arr xs)])⟩) =
      (some out, none)) :
    out.length = xs.length ∧
      ∀ i (hx : i < xs.length) (ho : i < out.length),
        decodeItem tag (xs.get ⟨i, hx⟩) = .ok (out.get ⟨i, ho⟩) := by
  have hd := searchPipeline_json_ok_inv tag st _ out h
  rw [decodeSearchResult_items] at hd
  exact decodeItems_ok_spec tag xs out hd

/-- Witness for C4 on a one-item repositories envelope. -/
theorem output_matches_items_pointwise_witness :
    searchPipeline "full_Name" (.response ⟨200, .json (.obj [("items", .arr
        [.obj [("full_name", .str "golang/go")]])])⟩) =
      (some ["golang/go"], none) ∧
    (["golang/go"] : List String).length =
      ([Json.obj [("full_name", Json.str "golang/go")]] : List Json).length ∧
    decodeItem "full_Name" (Json.obj [("full_name", Json.str "golang/go")]) =
      .ok "golang/go" := by
  have hp : searchPipeline "full_Name" (.response ⟨200, .json (.obj [("items",
      .arr [.obj [("full_name", .str "golang/go")]])])⟩) =
      (some ["golang/go"], none) := by decide
  have hres := output_matches_items_pointwise "full_Name" 200 _ _ hp
  exact ⟨hp, hres.1, hres.2 0 (by decide) (by decide)⟩

/-- Claim C5: any response status outside `[200, 300)` makes both searches
fail with the uniform error, regardless of the body. -/
theorem non_2xx_yields_search_error (st : Int) (b : Body)
    (h : st < 200 ∨ 300 ≤ st) :
    findRepos (.response ⟨st, b⟩) = (none, some connectionErrorMsg) ∧
    findUsers (.response ⟨st, b⟩) = (none, some connectionErrorMsg) := by
  refine ⟨?_, ?_⟩ <;>
    · simp only [findRepos, findUsers, searchPipeline]
      split
      · rfl
      · exfalso
        omega

/-- Witness for C5 at status 404 with a well-formed body. -/
theorem non_2xx_yields_search_error_witness :
    ((404 : Int) < 200 ∨ (300 : Int) ≤ 404) ∧
    findRepos (.response ⟨404, .json (.obj [("items", .arr
        [.obj [("full_name", .str "golang/go")]])])⟩) =
      (none, some connectionErrorMsg) :=
  ⟨by decide, (non_2xx_yields_search_error 404 (.json (.obj [("items", .arr
      [.obj [("full_name", .str "golang/go")]])])) (by decide)).1⟩

/-- Claim C6: a 2xx response whose body decodes to an envelope with an
empty `items` list yields an empty result sequence and no error, for both
searches. -/
theorem empty_items_yields_empty_result (st : Int)
    (h1 : 200 ≤ st) (h2 : st < 300) :
    findRepos (.response ⟨st, .json (.obj [("items", .arr [])])⟩) =
      (some [], none) ∧
    findUsers (.response ⟨st, .json (.obj [("items", .arr [])])⟩) =
      (some [], none) := by
  refine ⟨?_, ?_⟩ <;>
    · simp only [findRepos, findUsers, searchPipeline]
      split
      · exfalso
        omega
      · rfl

/-- Witness for C6 at status 200. -/
theorem empty_items_yields_empty_result_witness :
    ((200 : Int) ≤ 200 ∧ (200 : Int) < 300) ∧
    findUsers (.response ⟨200, .json (.obj [("items", .arr [])])⟩) =
      (some [], none) :=
  ⟨by decide, (empty_items_yields_empty_result 200 (by decide) (by decide)).2⟩

/-- Claim C7: an item object with no member matching the extraction field
decodes to the empty string (never a decode failure), and concretely
`{"items":[{}]}` yields `[""]` for both searches. -/
theorem missing_subfield_yields_empty_string :
    (∀ (tag : String) (members : List (String × Json)),
        (∀ kv ∈ members, eqFold kv.1 tag = false) →
        decodeItem tag (.obj members) = .ok "") ∧
    findRepos (.response ⟨200, .json (.obj [("items", .arr [.obj []])])⟩) =
      (some [""], none) ∧
    findUsers (.response ⟨200, .json (.obj [("items", .arr [.obj []])])⟩) =
      (some [""], none) := by
  refine ⟨?_, rfl, rfl⟩
  intro tag members hno
  simp only [decodeItem]
  exact decodeStringFieldFrom_of_no_match tag members hno ""

/-- Witness for C7 on an item with only a non-matching member. -/
theorem missing_subfield_yields_empty_string_witness :
    decodeItem "full_Name" (.obj [("stargazers", .num 5)]) = .ok "" ∧
    findRepos (.response ⟨200, .json (.obj [("items", .arr [.obj []])])⟩) =
      (some [""], none) :=
  ⟨missing_subfield_yields_empty_string.1 "full_Name" [("stargazers", .num 5)]
      (by decide),
    missing_subfield_yields_empty_string.2.1⟩

/-- Claim C8: for every byte-string term, the raw query built by the
searches carries the term as the value of the single parameter `q`,
URL-encoded exactly once: decoding the query string recovers the term
verbatim. -/
theorem query_term_encoded_once (term : List Nat) (h : ∀ b ∈ term, b < 256) :
    parseQuery (encodedQuery term) = some [([113], term)] := by
  have hterm : queryUnescape (queryEscape term) = some term :=
    queryUnescape_queryEscape term h
  have h38 : (38 : Nat) ∉ encodedQuery term := by
    intro hm
    simp only [encodedQuery, List.mem_cons] at hm
    rcases hm with h1 | h1 | h1
    · omega
    · omega
    · exact amp_not_mem_queryEscape term h h1
  have hcut : cutByte 61 (encodedQuery term) = ([113], queryEscape term) := by
    simp [encodedQuery, cutByte]
  have h113 : queryUnescape [113] = some [113] := by decide
  have hpair : parsePair (encodedQuery term) = some ([113], term) := by
    simp only [parsePair, hcut, h113, hterm]
  unfold parseQuery
  rw [splitOnByte_of_not_mem 38 (encodedQuery term) h38]
  simp only [parsePairs]
  rw [if_neg (by simp [encodedQuery] : ¬encodedQuery term = ([] : List Nat))]
  rw [hpair]

/-- Witness for C8 on the term `a &b` (bytes 97, 32, 38, 98), which
contains both a space and an ampersand. -/
theorem query_term_encoded_once_witness :
    (∀ b ∈ ([97, 32, 38, 98] : List Nat), b < 256) ∧
    parseQuery (encodedQuery [97, 32, 38, 98]) =
      some [([113], [97, 32, 38, 98])] :=
  ⟨by decide, query_term_encoded_once [97, 32, 38, 98] (by decide)⟩

/-- Claim C9: whenever either search fails (its error component is
`some`), the returned slice is `none` (Go `nil`): no partial results
accompany an error. -/
theorem no_partial_results_on_failure (fetch : FetchOutcome) (msg : String) :
    ((findRepos fetch).2 = some msg → (findRepos fetch).1 = none) ∧
    ((findUsers fetch).2 = some msg → (findUsers fetch).1 = none) := by
  constructor
  · intro hmsg
    rcases searchPipeline_shape "full_Name" fetch with hs | ⟨out, hs⟩
    · simp only [findRepos]
      rw [hs]
    · simp only [findRepos] at hmsg
      rw [hs] at hmsg
      simp at hmsg
  · intro hmsg
    rcases searchPipeline_shape "login" fetch with hs | ⟨out, hs⟩
    · simp only [findUsers]
      rw [hs]
    · simp only [findUsers] at hmsg
      rw [hs] at hmsg
      simp at hmsg

/-- Witness for C9 at a transport error. -/
theorem no_partial_results_on_failure_witness :
    (findRepos FetchOutcome.transportError).2 = some connectionErrorMsg ∧
    (findRepos FetchOutcome.transportError).1 = none :=
  ⟨rfl, (no_partial_results_on_failure FetchOutcome.transportError
    connectionErrorMsg).1 rfl⟩

/-- Claim C10: with no positional argument, `executeSearchUsers` returns
exactly the repos-subcommand wording of the missing-term error, identical
to what `executeSearchRepos` returns in the same situation. -/
theorem missing_term_error_users_names_repos (fetch : FetchOutcome) :
    executeSearchUsers [] fetch =
      some "provide a search term for searching repos: search-repos <search_term>" ∧
    executeSearchUsers [] fetch = executeSearchRepos [] fetch :=
  ⟨rfl, rfl⟩

/-- Witness for C10 at a concrete fetch outcome. -/
theorem missing_term_error_users_names_repos_witness :
    executeSearchUsers [] FetchOutcome.transportError =
      some "provide a search term for searching repos: search-repos <search_term>" :=
  (missing_term_error_users_names_repos FetchOutcome.transportError).1

end GoCliFlag
